import Mathlib

set_option maxHeartbeats 1000000

/-!
Shallow embedding of the Kratu MCC reporting script (`kratu.js`) and of the
campaign zero-impression alert script (the second source file).

Conventions:
* Numeric spreadsheet and report values are modelled as exact rationals (ℚ);
  the JavaScript source uses IEEE doubles, but every claim under study is a
  statement of exact arithmetic on small values.
* An empty timestamp cell is modelled as `0 : Nat`.  In the source both the
  empty string `''` and the number `0` are falsy and `0 != ''` is false under
  loose equality, so both relevant checks (`processed != ''` in
  `getUnprocessedAccounts` and `if (processed)` in `allAccountsProcessed`)
  treat the cell as unprocessed exactly when our model value is `0`.
  Real timestamps (`new Date().getTime()`) are nonzero.
-/

namespace Kratu

/-- A row of the Signals tab as read by `readSignalDefinitions`
(kratu.js lines 480-490). -/
structure SignalDefinition where
  name : String
  displayName : String
  includeInReport : String
  type : String
  direction : String
  format : String
  weight : ℚ
  min : ℚ
  max : ℚ
deriving DecidableEq, Repr

/-- `signalManager.normalize` (kratu.js lines 263-284). -/
def normalize (signalDefinition : SignalDefinition) (value : ℚ) : ℚ :=
  if signalDefinition.direction = "High" then
    if value ≥ signalDefinition.max then 1
    else if value ≤ signalDefinition.min then 0
    else (value - signalDefinition.min) /
      (signalDefinition.max - signalDefinition.min)
  else if signalDefinition.direction = "Low" then
    if value ≥ signalDefinition.max then 0
    else if value ≤ signalDefinition.min then 1
    else 1 - ((value - signalDefinition.min) /
      (signalDefinition.max - signalDefinition.min))
  else value

/-- `spreadsheetManager.calculateSumWeights` (kratu.js lines 521-531):
sum of weights over definitions with type `Number` that are included in the
report -- the direction is not consulted. -/
def calculateSumWeights (signalDefinitions : List SignalDefinition) : ℚ :=
  signalDefinitions.foldl
    (fun sumWeights signalDefinition =>
      if signalDefinition.type = "Number" ∧
          signalDefinition.includeInReport = "Yes" then
        sumWeights + signalDefinition.weight
      else sumWeights) 0

/-- `spreadsheetManager.readSignalDefinitions` (kratu.js lines 471-498): rows
with an empty name cell are skipped, then `calculateSumWeights` caches the sum
of weights.  The source raises no error in this function; it returns the kept
definitions together with the cached sum. -/
def readSignalDefinitions (rows : List SignalDefinition) :
    List SignalDefinition × ℚ :=
  let signalDefinitions := rows.filter (fun r => r.name != "")
  (signalDefinitions, calculateSumWeights signalDefinitions)

/-- A raw report-row cell as consumed by `calculateRawSignals`: a numeric
string, or a string carrying a percent marker whose `parseFloat` value is
`q`. -/
inductive RawValue where
  | num (q : ℚ)
  | percent (q : ℚ)
deriving DecidableEq, Repr

/-- The percent handling of `calculateRawSignals` (kratu.js lines 359-362):
a value containing a percent marker is `parseFloat`-ed and divided by 100. -/
def convertRawValue : RawValue → ℚ
  | RawValue.num q => q
  | RawValue.percent q => q / 100

/-- `signalManager.calculateRawSignals` (kratu.js lines 334-370), restricted to
its data transformation: for each signal definition, read the report row cell
for that signal's name and convert percent-marked values. -/
def calculateRawSignals (signalDefinitions : List SignalDefinition)
    (row : String → RawValue) : List (String × ℚ) :=
  signalDefinitions.map (fun sd => (sd.name, convertRawValue (row sd.name)))

/-- Look up a raw signal by name (the dictionary access
`accountInfo.rawSignals[signalDefinition.name]`). -/
def rawSignalLookup (rawSignals : List (String × ℚ)) (name : String) : ℚ :=
  (rawSignals.lookup name).getD 0

/-- Per-signal entry of `accountInfo.signals` (kratu.js lines 304-317);
`normalizedValue` and `signalScore` are only set for `Number` signals. -/
structure SignalResult where
  value : ℚ
  displayValue : ℚ
  normalizedValue : Option ℚ
  signalScore : Option ℚ
deriving DecidableEq, Repr

/-- The score-related fields `processSignals` writes into `accountInfo`
(kratu.js lines 297, 322-324). -/
structure AccountInfo where
  signals : List (String × SignalResult)
  scoreSum : ℚ
  scoreWeights : ℚ
  score : ℚ
deriving DecidableEq, Repr

/-- Loop body of `signalManager.processSignals` (kratu.js lines 299-320):
the accumulator carries the signals written so far and the running
`sumScore`. -/
def processSignalsStep (raw : String → ℚ)
    (acc : List (String × SignalResult) × ℚ) (sd : SignalDefinition) :
    List (String × SignalResult) × ℚ :=
  if sd.includeInReport = "Yes" then
    let value := raw sd.name
    if sd.type = "Number" then
      let normalizedValue := normalize sd value
      let signalScore := normalizedValue * sd.weight
      (acc.1 ++ [(sd.name, ⟨value, value, some normalizedValue, some signalScore⟩)],
        acc.2 + signalScore)
    else
      (acc.1 ++ [(sd.name, ⟨value, value, none, none⟩)], acc.2)
  else acc

/-- `signalManager.processSignals` (kratu.js lines 292-325).  `sumWeights` is
the catalog's cached sum of weights; the final score is
`sumScore / sumWeights`, computed unconditionally (in JavaScript a zero
`sumWeights` yields NaN/Infinity; in this ℚ model division by zero yields 0 --
no claim under study depends on the value of that quotient). -/
def processSignals (signalDefinitions : List SignalDefinition) (sumWeights : ℚ)
    (raw : String → ℚ) : AccountInfo :=
  let folded := signalDefinitions.foldl (processSignalsStep raw) ([], 0)
  { signals := folded.1
    scoreSum := folded.2
    scoreWeights := sumWeights
    score := folded.2 / sumWeights }

/-- A spreadsheet cell value as seen by the settings manager, with JavaScript
truthiness. -/
inductive JSVal where
  | str (s : String)
  | num (q : ℚ)
  | bool (b : Bool)
  | null
deriving DecidableEq, Repr

/-- JavaScript truthiness of a cell value: empty string, 0, false and null are
falsy. -/
def JSVal.truthy : JSVal → Bool
  | JSVal.str s => s != ""
  | JSVal.num q => q != 0
  | JSVal.bool b => b
  | JSVal.null => false

/-- A row of the Settings tab: key, type and value cells, plus the background
color of the value cell (used when the type cell is `Color`). -/
structure SettingRow where
  key : JSVal
  type : JSVal
  value : JSVal
  background : String
deriving DecidableEq, Repr

/-- A stored setting (kratu.js lines 949-953). -/
structure Setting where
  key : JSVal
  type : JSVal
  value : JSVal
deriving DecidableEq, Repr

/-- The value cell of a settings row after the `Color` substitution
(kratu.js lines 941-943). -/
def settingRowValue (row : SettingRow) : JSVal :=
  if row.type = JSVal.str "Color" then JSVal.str row.background else row.value

/-- Loop body of `settingsManager.readSettings` (kratu.js lines 936-956):
a row whose key or (substituted) value is falsy is skipped, the rest are
stored in order. -/
def readSettingsStep (settings : List Setting) (row : SettingRow) :
    List Setting :=
  let value := settingRowValue row
  if !row.key.truthy || !value.truthy then settings
  else settings ++ [{ key := row.key, type := row.type, value := value }]

/-- `settingsManager.readSettings` (kratu.js lines 933-959). -/
def readSettings (rows : List SettingRow) : List Setting :=
  rows.foldl readSettingsStep []

/-- The error text thrown by `getSetting` for a missing mandatory setting
(kratu.js line 977); the model keys the message by the structural key value. -/
def settingErrorText (key : JSVal) : String :=
  "Setting " ++ reprStr key ++ " is not set!"

/-- `settingsManager.getSetting` (kratu.js lines 969-981): return the value of
the first stored setting whose key matches and whose value is truthy; throw for
a missing mandatory setting, return null otherwise. -/
def getSetting (settings : List Setting) (key : JSVal) (mandatory : Bool) :
    Except String JSVal :=
  match settings.find? (fun s => s.key == key && s.value.truthy) with
  | some s => Except.ok s.value
  | none =>
    if mandatory then Except.error (settingErrorText key)
    else Except.ok JSVal.null

/-- A row of the Accounts tab: customer id and processed-timestamp cell
(0 models the empty cell, see the header comment). -/
structure AccountRow where
  cid : String
  processed : Nat
deriving DecidableEq, Repr

/-- A data row of the History tab: start timestamp, end timestamp (0 models
the empty cell / null) and the run spreadsheet url (kratu.js line 553). -/
structure HistoryRow where
  startTs : Nat
  endTs : Nat
  url : String
deriving DecidableEq, Repr

/-- Loop body of `spreadsheetManager.getUnprocessedAccounts` (kratu.js lines
694-704): a row is skipped when it is already processed or when
`NumAccountsProcess` ids have been gathered. -/
def getUnprocessedStep (numAccountsProcess : Nat) (accounts : List String)
    (r : AccountRow) : List String :=
  if r.processed ≠ 0 ∨ accounts.length ≥ numAccountsProcess then accounts
  else accounts ++ [r.cid]

/-- `spreadsheetManager.getUnprocessedAccounts` (kratu.js lines 689-707): walk
the Accounts tab in order, collecting unprocessed customer ids. -/
def getUnprocessedAccounts (tab : List AccountRow)
    (numAccountsProcess : Nat) : List String :=
  tab.foldl (getUnprocessedStep numAccountsProcess) []

/-- `spreadsheetManager.markAccountAsProcessed` (kratu.js lines 643-655): every
row whose cid matches gets the current timestamp in its processed cell. -/
def markAccountAsProcessed (tab : List AccountRow) (cid : String) (now : Nat) :
    List AccountRow :=
  tab.map (fun r => if r.cid = cid then { r with processed := now } else r)

/-- The batch loop's marking of one selected account after another (the
`markAccountAsProcessed` call at the end of each `processAccount` unit,
kratu.js line 158, iterated by the loop of `continueUnfinishedReport`). -/
def markAccounts (tab : List AccountRow) (cids : List String) (now : Nat) :
    List AccountRow :=
  cids.foldl (fun t cid => markAccountAsProcessed t cid now) tab

/-- `spreadsheetManager.allAccountsProcessed` (kratu.js lines 715-730): true
when every row has a truthy processed cell. -/
def allAccountsProcessed (tab : List AccountRow) : Bool :=
  tab.all (fun r => r.processed != 0)

/-- `spreadsheetManager.markRunAsProcessed` (kratu.js lines 588-593): set the
end-timestamp cell of the last History row, if any. -/
def markRunAsProcessed : List HistoryRow → Nat → List HistoryRow
  | [], _ => []
  | [r], now => [{ r with endTs := now }]
  | r :: rest, now => r :: markRunAsProcessed rest now

/-- `spreadsheetManager.hasUnfinishedRun` (kratu.js lines 569-583): true when
the History tab has a data row and the last row's end cell is falsy. -/
def hasUnfinishedRun (history : List HistoryRow) : Bool :=
  match history.getLast? with
  | none => false
  | some last => last.endTs == 0

/-- `spreadsheetManager.getLastReportStartTimestamp` (kratu.js lines 601-608):
the start cell of the last History row; the null returned for an empty history
is modelled as 0 (`main` only tests its truthiness). -/
def getLastReportStartTimestamp (history : List HistoryRow) : Nat :=
  match history.getLast? with
  | none => 0
  | some last => last.startTs

/-- `dayDifference` (kratu.js lines 198-200): full days between two
timestamps (milliseconds).  `parseInt` truncation agrees with Nat division for
`time2 ≥ time1`. -/
def dayDifference (time1 time2 : Nat) : Nat :=
  (time2 - time1) / (24 * 3600 * 1000)

/-- The durable and observable state touched by one invocation of `main`:
the History and Accounts tabs, the sheet protection flag, what has been
written to the current run sheet (header writes and appended data-row scores),
and how many times run-completion notification was triggered. -/
structure KratuState where
  history : List HistoryRow
  accounts : List AccountRow
  protectionOn : Bool
  headerWrites : Nat
  dataRows : List ℚ
  notifications : Nat
deriving DecidableEq, Repr

/-- `signalManager.getAccountInfos` (kratu.js lines 247-253): the account infos
accumulated this invocation, sorted by decreasing score. -/
def getAccountInfos (accountInfos : List AccountInfo) : List AccountInfo :=
  accountInfos.mergeSort (fun a b => decide (b.score ≤ a.score))

/-- `continueUnfinishedReport` (kratu.js lines 86-112) together with the loop
body `processAccount` (lines 153-159) and `writeAccountDataToSpreadsheet`
(lines 165-174).  Per selected account the unit is: fetch raw signals, score
via `processSignals`, append the account info, then immediately mark the
account processed.  Afterwards the header row is (re)written and the data rows
are appended; if at least one account was processed and all accounts are now
processed, the protection is removed, the run is closed and notification is
triggered.  Returns the new state and the processed count. -/
def continueUnfinishedReport (signalDefinitions : List SignalDefinition)
    (sumWeights : ℚ) (raw : String → String → ℚ) (numAccountsProcess : Nat)
    (now : Nat) (st : KratuState) : KratuState × Nat :=
  let selected := getUnprocessedAccounts st.accounts numAccountsProcess
  let accounts' := markAccounts st.accounts selected now
  let accountInfos :=
    selected.map (fun cid => processSignals signalDefinitions sumWeights (raw cid))
  let processed := selected.length
  let st1 : KratuState :=
    { st with
      accounts := accounts'
      headerWrites := st.headerWrites + 1
      dataRows := st.dataRows ++ (getAccountInfos accountInfos).map (·.score) }
  if 0 < processed ∧ allAccountsProcessed accounts' then
    ({ st1 with
        protectionOn := false
        history := markRunAsProcessed st1.history now
        notifications := st1.notifications + 1 }, processed)
  else (st1, processed)

/-- `startNewReport` (kratu.js lines 119-146): protect the configuration
sheets, clear the Accounts tab, enumerate the fleet into it with empty
processed cells, and append an open History row for the new run sheet. -/
def startNewReport (fleet : List String) (now : Nat) (newUrl : String)
    (st : KratuState) : KratuState :=
  { st with
    protectionOn := true
    accounts := fleet.map (fun cid => { cid := cid, processed := 0 })
    history := st.history ++ [{ startTs := now, endTs := 0, url := newUrl }] }

/-- `main` (kratu.js lines 54-70): continue an unfinished run if one is open;
otherwise start a new run when there is no previous run or the report
frequency has elapsed; otherwise do nothing. -/
def mainStep (signalDefinitions : List SignalDefinition) (sumWeights : ℚ)
    (raw : String → String → ℚ) (reportFrequency numAccountsProcess : Nat)
    (fleet : List String) (newUrl : String) (now : Nat) (st : KratuState) :
    KratuState :=
  if hasUnfinishedRun st.history then
    (continueUnfinishedReport signalDefinitions sumWeights raw
      numAccountsProcess now st).1
  else
    let lastReportStart := getLastReportStartTimestamp st.history
    if lastReportStart = 0 ∨
        dayDifference lastReportStart now ≥ reportFrequency then
      startNewReport fleet now newUrl st
    else st

end Kratu

namespace CampaignAlert

/-- A campaign as observed by the alert script: name, enabled flag and
yesterday's impression count. -/
structure Campaign where
  name : String
  enabled : Bool
  impressionsYesterday : Nat
deriving DecidableEq, Repr

/-- An email sent through `MailApp.sendEmail`. -/
structure Email where
  recipient : String
  subject : String
  plainBody : String
  htmlBody : String
deriving DecidableEq, Repr

/-- The opening line of the alert body (second source file, line 9). -/
def bodyHeader : String :=
  "Ontem estas campanhas não tiveram impressões:<br>"

/-- Loop body of the alert script's `main`: an enabled campaign with zero
impressions yesterday appends its name to the body and bumps the counter. -/
def alertStep (acc : String × Nat) (campaign : Campaign) : String × Nat :=
  if campaign.impressionsYesterday == 0 && campaign.enabled then
    (acc.1 ++ campaign.name ++ "<br>", acc.2 + 1)
  else acc

/-- `main` of the campaign alert script (second source file): iterate over all
campaigns, collecting into the body the names of enabled campaigns with zero
impressions yesterday and counting them; send a single email exactly when the
count is positive. -/
def campaignAlertMain (accountName yourEmail : String)
    (campaigns : List Campaign) : List Email :=
  let folded := campaigns.foldl alertStep (bodyHeader, 0)
  if folded.2 > 0 then
    [{ recipient := yourEmail
       subject := "Alerta: " ++ accountName ++ " – " ++ toString folded.2 ++
         " Campanhas sem impressões"
       plainBody := ""
       htmlBody := folded.1 }]
  else []

/-- The `<br>`-terminated names of a list of campaigns, concatenated in
order; used to state what the alert body contains. -/
def namesHtml : List Campaign → String
  | [] => ""
  | c :: rest => c.name ++ "<br>" ++ namesHtml rest

end CampaignAlert

namespace Kratu

/-- The CTR example signal of the spec: direction High, min 0.01, max 0.10,
weight 2. -/
def ctrSig : SignalDefinition :=
  { name := "CTR", displayName := "CTR", includeInReport := "Yes"
    type := "Number", direction := "High", format := ""
    weight := 2, min := 1/100, max := 1/10 }

/-- An included Number signal with direction None and weight 1. -/
def noneSig : SignalDefinition :=
  { name := "Metric", displayName := "Metric", includeInReport := "Yes"
    type := "Number", direction := "None", format := ""
    weight := 1, min := 0, max := 1 }

/-- A catalog whose only included Number signal has weight 0, so the sum of
weights is 0. -/
def zeroWeightCatalog : List SignalDefinition :=
  [{ name := "A", displayName := "A", includeInReport := "Yes"
     type := "Number", direction := "High", format := ""
     weight := 0, min := 0, max := 1 }]

/-- The account info `processSignals` computes for the CTR example signal when
the report row carries the percent-marked raw value "5%". -/
def ctrExampleInfo : AccountInfo :=
  processSignals [ctrSig] (calculateSumWeights [ctrSig])
    (fun n => rawSignalLookup
      (calculateRawSignals [ctrSig] (fun _ => RawValue.percent 5)) n)

/-- A state with one open run and one unprocessed account, used to exercise a
zero-size batch. -/
def oneAccountState : KratuState :=
  { history := [{ startTs := 5, endTs := 0, url := "run" }]
    accounts := [{ cid := "123", processed := 0 }]
    protectionOn := true
    headerWrites := 0
    dataRows := []
    notifications := 0 }

/-- A small Accounts tab: two unprocessed rows around one processed row. -/
def demoTab : List AccountRow :=
  [{ cid := "A", processed := 0 }, { cid := "B", processed := 7 },
   { cid := "C", processed := 0 }]

/-- A settings row whose mandatory integer value is explicitly 0 (falsy). -/
def zeroSettingRow : SettingRow :=
  { key := JSVal.str "NumAccountsProcess", type := JSVal.str "Number"
    value := JSVal.num 0, background := "" }

lemma processSignalsStep_snd (raw : String → ℚ)
    (acc : List (String × SignalResult) × ℚ) (sd : SignalDefinition) :
    (processSignalsStep raw acc sd).2 =
      acc.2 + (if sd.includeInReport = "Yes" ∧ sd.type = "Number" then
        normalize sd (raw sd.name) * sd.weight else 0) := by
  unfold processSignalsStep
  by_cases h1 : sd.includeInReport = "Yes" <;>
    by_cases h2 : sd.type = "Number" <;>
    simp [h1, h2]

lemma processSignals_scoreSum_concat (signalDefinitions : List SignalDefinition)
    (sd : SignalDefinition) (sumWeights : ℚ) (raw : String → ℚ) :
    (processSignals (signalDefinitions ++ [sd]) sumWeights raw).scoreSum =
      (processSignals signalDefinitions sumWeights raw).scoreSum +
        (if sd.includeInReport = "Yes" ∧ sd.type = "Number" then
          normalize sd (raw sd.name) * sd.weight else 0) := by
  simp only [processSignals, List.foldl_append, List.foldl_cons, List.foldl_nil]
  exact processSignalsStep_snd raw _ sd

lemma calculateSumWeights_concat (signalDefinitions : List SignalDefinition)
    (sd : SignalDefinition) :
    calculateSumWeights (signalDefinitions ++ [sd]) =
      calculateSumWeights signalDefinitions +
        (if sd.type = "Number" ∧ sd.includeInReport = "Yes" then sd.weight
          else 0) := by
  simp only [calculateSumWeights, List.foldl_append, List.foldl_cons,
    List.foldl_nil]
  by_cases h : sd.type = "Number" ∧ sd.includeInReport = "Yes" <;> simp [h]

/-- C1: the claim that an included Number signal with direction None
contributes 0 to `scoreSum` and 0 to the sum of weights is false: with weight 1
and raw value 2 it contributes 2 to `scoreSum`, and its weight 1 is counted in
the catalog's sum of weights. -/
theorem c1_counterexample :
    (processSignals [noneSig] (readSignalDefinitions [noneSig]).2
        (fun _ => 2)).scoreSum ≠ 0 ∧
      (readSignalDefinitions [noneSig]).2 ≠ 0 := by
  constructor <;>
    simp [processSignals, processSignalsStep, readSignalDefinitions,
      calculateSumWeights, normalize, noneSig]

/-- C1 (amended): for an included Number signal with direction None, normalize
returns the raw value unchanged, the signal adds `value × weight` to the
account's `scoreSum`, and its full weight is added to the catalog's sum of
weights — so it is unscored only when its weight (respectively value) is 0. -/
theorem c1_direction_none_contribution (sd : SignalDefinition) (v : ℚ)
    (h1 : sd.includeInReport = "Yes") (h2 : sd.type = "Number")
    (h3 : sd.direction = "None") (signalDefinitions : List SignalDefinition)
    (sumWeights : ℚ) (raw : String → ℚ) :
    normalize sd v = v ∧
    (processSignals (signalDefinitions ++ [sd]) sumWeights raw).scoreSum =
      (processSignals signalDefinitions sumWeights raw).scoreSum +
        raw sd.name * sd.weight ∧
    calculateSumWeights (signalDefinitions ++ [sd]) =
      calculateSumWeights signalDefinitions + sd.weight := by
  have hnorm : ∀ w : ℚ, normalize sd w = w := by
    intro w
    simp [normalize, h3]
  refine ⟨hnorm v, ?_, ?_⟩
  · rw [processSignals_scoreSum_concat, if_pos ⟨h1, h2⟩, hnorm]
  · rw [calculateSumWeights_concat, if_pos ⟨h2, h1⟩]

theorem c1_witness :
    noneSig.includeInReport = "Yes" ∧ noneSig.type = "Number" ∧
      noneSig.direction = "None" ∧ normalize noneSig 2 = 2 :=
  ⟨rfl, rfl, rfl,
    (c1_direction_none_contribution noneSig 2 rfl rfl rfl [] 1 (fun _ => 2)).1⟩

/-- C2: the claim that a zero sum of weights is rejected at catalog-load time
is false: loading a catalog whose only included Number signal has weight 0
returns normally with sum of weights 0, and scoring still runs, producing an
account info with `scoreWeights = 0` (the division is evaluated; in JavaScript
it yields NaN). -/
theorem c2_counterexample :
    (readSignalDefinitions zeroWeightCatalog).2 = 0 ∧
      (processSignals (readSignalDefinitions zeroWeightCatalog).1
          (readSignalDefinitions zeroWeightCatalog).2
          (fun _ => 5)).scoreWeights = 0 := by
  constructor <;>
    simp [processSignals, processSignalsStep, readSignalDefinitions,
      calculateSumWeights, zeroWeightCatalog]

/-- C2 (amended): catalog load performs no validation of the sum of weights
and raises no error; whenever the loaded catalog's sum of weights is 0,
scoring is still invoked with `scoreWeights = 0` and the final score is the
division `scoreSum / 0` (NaN in JavaScript, 0 in this ℚ model). -/
theorem c2_no_zero_weight_guard (rows : List SignalDefinition)
    (raw : String → ℚ) (h : (readSignalDefinitions rows).2 = 0) :
    (processSignals (readSignalDefinitions rows).1
        (readSignalDefinitions rows).2 raw).scoreWeights = 0 ∧
      (processSignals (readSignalDefinitions rows).1
          (readSignalDefinitions rows).2 raw).score =
        (processSignals (readSignalDefinitions rows).1
            (readSignalDefinitions rows).2 raw).scoreSum / 0 := by
  rw [h]
  exact ⟨rfl, rfl⟩

theorem c2_witness :
    (readSignalDefinitions zeroWeightCatalog).2 = 0 ∧
      (processSignals (readSignalDefinitions zeroWeightCatalog).1
          (readSignalDefinitions zeroWeightCatalog).2
          (fun _ => 5)).scoreWeights = 0 ∧
      (processSignals (readSignalDefinitions zeroWeightCatalog).1
          (readSignalDefinitions zeroWeightCatalog).2 (fun _ => 5)).score =
        (processSignals (readSignalDefinitions zeroWeightCatalog).1
            (readSignalDefinitions zeroWeightCatalog).2
            (fun _ => 5)).scoreSum / 0 := by
  have h : (readSignalDefinitions zeroWeightCatalog).2 = 0 := by
    simp [readSignalDefinitions, calculateSumWeights, zeroWeightCatalog]
  exact ⟨h, c2_no_zero_weight_guard zeroWeightCatalog (fun _ => 5) h⟩

lemma normalize_high_eq (sd : SignalDefinition) (h1 : sd.direction = "High")
    (v : ℚ) :
    normalize sd v =
      if v ≥ sd.max then 1
      else if v ≤ sd.min then 0
      else (v - sd.min) / (sd.max - sd.min) := by
  simp [normalize, h1]

/-- C6: for a Number signal with direction High and min < max, normalize is
the clamped linear ramp: it is within [0,1] everywhere, equals 1 at or above
max, equals 0 at or below min, equals the linear ramp strictly between, and is
monotonically non-decreasing. -/
theorem c6_normalize_high (sd : SignalDefinition) (h1 : sd.direction = "High")
    (h2 : sd.min < sd.max) :
    (∀ v : ℚ, 0 ≤ normalize sd v ∧ normalize sd v ≤ 1) ∧
    (∀ v : ℚ, sd.max ≤ v → normalize sd v = 1) ∧
    (∀ v : ℚ, v ≤ sd.min → normalize sd v = 0) ∧
    (∀ v : ℚ, sd.min < v → v < sd.max →
      normalize sd v = (v - sd.min) / (sd.max - sd.min)) ∧
    (∀ v w : ℚ, v ≤ w → normalize sd v ≤ normalize sd w) := by
  have hd : (0 : ℚ) < sd.max - sd.min := by linarith
  have hone : ∀ v : ℚ, sd.max ≤ v → normalize sd v = 1 := by
    intro v hv
    rw [normalize_high_eq sd h1 v, if_pos hv]
  have hzero : ∀ v : ℚ, v ≤ sd.min → normalize sd v = 0 := by
    intro v hv
    rw [normalize_high_eq sd h1 v, if_neg (not_le.mpr (by linarith)),
      if_pos hv]
  have hramp : ∀ v : ℚ, sd.min < v → v < sd.max →
      normalize sd v = (v - sd.min) / (sd.max - sd.min) := by
    intro v hl hu
    rw [normalize_high_eq sd h1 v, if_neg (not_le.mpr hu),
      if_neg (not_le.mpr hl)]
  have hbounds : ∀ v : ℚ, 0 ≤ normalize sd v ∧ normalize sd v ≤ 1 := by
    intro v
    rcases le_or_lt sd.max v with hv | hv
    · rw [hone v hv]
      norm_num
    · rcases le_or_lt v sd.min with hv2 | hv2
      · rw [hzero v hv2]
        norm_num
      · rw [hramp v hv2 hv]
        constructor
        · exact div_nonneg (by linarith) (le_of_lt hd)
        · rw [div_le_one hd]
          linarith
  refine ⟨hbounds, hone, hzero, hramp, ?_⟩
  intro v w hvw
  rcases le_or_lt sd.max w with hw | hw
  · rw [hone w hw]
    exact (hbounds v).2
  · rcases le_or_lt v sd.min with hv | hv
    · rw [hzero v hv]
      exact (hbounds w).1
    · have hvmax : v < sd.max := lt_of_le_of_lt hvw hw
      have hwmin : sd.min < w := lt_of_lt_of_le hv hvw
      rw [hramp v hv hvmax, hramp w hwmin hw]
      gcongr

theorem c6_witness :
    ctrSig.direction = "High" ∧ ctrSig.min < ctrSig.max ∧
      normalize ctrSig (1/8) = 1 :=
  ⟨rfl, by norm_num [ctrSig],
    (c6_normalize_high ctrSig rfl (by norm_num [ctrSig])).2.1 (1/8)
      (by norm_num [ctrSig])⟩

/-- C7: a percent-marked raw value is divided by 100 at ingestion; for the CTR
example signal (High, min 0.01, max 0.10, weight 2) and raw value "5%",
ingestion yields 0.05, normalization yields 4/9 and the per-signal
contribution (normalized × weight) is 8/9, which is also the whole
`scoreSum`. -/
theorem c7_percent_example :
    rawSignalLookup
        (calculateRawSignals [ctrSig] (fun _ => RawValue.percent 5)) "CTR" =
      1/20 ∧
    normalize ctrSig (1/20) = 4/9 ∧
    ctrExampleInfo.signals.lookup "CTR" =
      some { value := 1/20, displayValue := 1/20,
             normalizedValue := some (4/9), signalScore := some (8/9) } ∧
    ctrExampleInfo.scoreSum = 8/9 := by
  refine ⟨?_, ?_, ?_, ?_⟩ <;>
    norm_num [ctrExampleInfo, processSignals, processSignalsStep,
      calculateRawSignals, rawSignalLookup, convertRawValue, normalize,
      calculateSumWeights, ctrSig, List.lookup]

end Kratu

namespace Kratu
lemma readSettingsStep_eq (settings : List Setting) (row : SettingRow) :
    readSettingsStep settings row =
      if row.key.truthy && (settingRowValue row).truthy then
        settings ++
          [{ key := row.key, type := row.type
             value := settingRowValue row }]
      else settings := by
  unfold readSettingsStep
  by_cases hk : row.key.truthy <;>
    by_cases hv : (settingRowValue row).truthy <;>
    simp [hk, hv]

lemma readSettings_eq (rows : List SettingRow) :
    readSettings rows =
      (rows.filter
        (fun row => row.key.truthy && (settingRowValue row).truthy)).map
        (fun row =>
          { key := row.key, type := row.type
            value := settingRowValue row }) := by
  have aux : ∀ (l : List SettingRow) (acc : List Setting),
      l.foldl readSettingsStep acc =
        acc ++ (l.filter
          (fun row => row.key.truthy && (settingRowValue row).truthy)).map
          (fun row =>
            { key := row.key, type := row.type
              value := settingRowValue row }) := by
    intro l
    induction l with
    | nil =>
      intro acc
      simp
    | cons row rest ih =>
      intro acc
      rw [List.foldl_cons, readSettingsStep_eq]
      by_cases hkeep : (row.key.truthy && (settingRowValue row).truthy) = true
      · rw [if_pos hkeep, ih]
        simp [List.filter_cons, hkeep]
      · simp only [Bool.not_eq_true] at hkeep
        simp [List.filter_cons, hkeep, ih]
  simpa [readSettings] using aux rows []

lemma mem_readSettings_truthy {rows : List SettingRow} {s : Setting}
    (hs : s ∈ readSettings rows) : s.value.truthy = true := by
  rw [readSettings_eq] at hs
  rcases List.mem_map.mp hs with ⟨row, hrow, rfl⟩
  have hkeep := (List.mem_filter.mp hrow).2
  simp only [Bool.and_eq_true] at hkeep
  exact hkeep.2

lemma find_matching_eq (key : JSVal) :
    ∀ (l : List Setting), (∀ s ∈ l, s.value.truthy = true) →
      l.find? (fun s => s.key == key && s.value.truthy) =
        (l.filter (fun s => s.key == key)).head? := by
  intro l
  induction l with
  | nil =>
    intro _
    rfl
  | cons s rest ih =>
    intro h
    have hs := h s (List.mem_cons_self s rest)
    have hrest := ih (fun t ht => h t (List.mem_cons_of_mem s ht))
    by_cases hk : (s.key == key) = true
    · simp [List.find?_cons, List.filter_cons, hk, hs]
    · simp only [Bool.not_eq_true] at hk
      simp [List.find?_cons, List.filter_cons, hk, hs, hrest]

/-- C9: a settings row whose (type-substituted) value is falsy is dropped by
`readSettings`, so it is indistinguishable from an absent row; `getSetting`
returns the value of the first stored setting with the requested key (stored
values are always truthy), yields null for a missing optional setting, throws
for a missing mandatory setting — hence a mandatory setting explicitly set to
the falsy value 0 aborts the invocation. -/
theorem c9_falsy_settings (rows : List SettingRow) (key : JSVal)
    (mandatory : Bool) :
    readSettings rows =
      readSettings (rows.filter
        (fun row => row.key.truthy && (settingRowValue row).truthy)) ∧
    getSetting (readSettings rows) key mandatory =
      (match ((readSettings rows).filter (fun s => s.key == key)).head? with
        | some s => Except.ok s.value
        | none =>
          if mandatory then Except.error (settingErrorText key)
          else Except.ok JSVal.null) ∧
    ((∀ row ∈ rows, row.key = key → (settingRowValue row).truthy = false) →
      getSetting (readSettings rows) key true =
        Except.error (settingErrorText key)) := by
  have hchar : ∀ m : Bool, getSetting (readSettings rows) key m =
      (match ((readSettings rows).filter (fun s => s.key == key)).head? with
        | some s => Except.ok s.value
        | none =>
          if m then Except.error (settingErrorText key)
          else Except.ok JSVal.null) := by
    intro m
    have h := find_matching_eq key (readSettings rows)
      (fun s hs => mem_readSettings_truthy hs)
    simp only [getSetting, h]
  refine ⟨?_, hchar mandatory, ?_⟩
  · rw [readSettings_eq, readSettings_eq, List.filter_filter]
    simp
  · intro hfalsy
    have hnil : ((readSettings rows).filter (fun s => s.key == key)) = [] := by
      rw [List.filter_eq_nil_iff]
      intro s hs
      rw [readSettings_eq] at hs
      rcases List.mem_map.mp hs with ⟨row, hrow, rfl⟩
      rcases List.mem_filter.mp hrow with ⟨hrowmem, hkeep⟩
      simp only [Bool.and_eq_true] at hkeep
      simp only [beq_iff_eq]
      intro hkey
      rw [hfalsy row hrowmem hkey] at hkeep
      exact (Bool.false_ne_true hkeep.2).elim
    rw [hchar true, hnil]
    rfl

theorem c9_witness :
    getSetting (readSettings [zeroSettingRow]) (JSVal.str "NumAccountsProcess")
        true =
      Except.error (settingErrorText (JSVal.str "NumAccountsProcess")) := by
  refine (c9_falsy_settings [zeroSettingRow] (JSVal.str "NumAccountsProcess")
    true).2.2 ?_
  intro row hrow hkey
  rcases List.mem_singleton.mp hrow with rfl
  simp [settingRowValue, zeroSettingRow, JSVal.truthy]

end Kratu

namespace CampaignAlert

lemma alertFold (campaigns : List Campaign) :
    ∀ (s : String) (n : Nat),
      campaigns.foldl alertStep (s, n) =
      (s ++ namesHtml (campaigns.filter
          (fun c => c.impressionsYesterday == 0 && c.enabled)),
        n + (campaigns.filter
          (fun c => c.impressionsYesterday == 0 && c.enabled)).length) := by
  induction campaigns with
  | nil =>
    intro s n
    simp [namesHtml]
  | cons c cs ih =>
    intro s n
    by_cases hc : (c.impressionsYesterday == 0 && c.enabled) = true
    · rw [List.foldl_cons,
        show alertStep (s, n) c = (s ++ c.name ++ "<br>", n + 1) from by
          simp [alertStep, hc],
        ih]
      rw [Prod.mk.injEq]
      constructor
      · simp [List.filter_cons, hc, namesHtml, String.append_assoc]
      · simp [List.filter_cons, hc]
        omega
    · simp only [Bool.not_eq_true] at hc
      rw [List.foldl_cons,
        show alertStep (s, n) c = (s, n) from by simp [alertStep, hc], ih]
      simp [List.filter_cons, hc]

/-- C10: the campaign-alert entry point sends exactly one email iff at least
one enabled campaign had zero impressions yesterday; the body is the header
followed by the names of exactly the enabled zero-impression campaigns, in
order; and no email is sent when there is no such campaign. -/
theorem c10_zero_impression_alert (accountName yourEmail : String)
    (campaigns : List Campaign) :
    (campaignAlertMain accountName yourEmail campaigns ≠ [] ↔
      ∃ c ∈ campaigns, c.enabled = true ∧ c.impressionsYesterday = 0) ∧
    campaignAlertMain accountName yourEmail campaigns =
      (if (campaigns.filter
            (fun c => c.impressionsYesterday == 0 && c.enabled)) = [] then
        ([] : List Email)
       else
        [{ recipient := yourEmail
           subject := "Alerta: " ++ accountName ++ " – " ++
             toString (campaigns.filter
               (fun c => c.impressionsYesterday == 0 && c.enabled)).length ++
             " Campanhas sem impressões"
           plainBody := ""
           htmlBody := bodyHeader ++ namesHtml (campaigns.filter
             (fun c => c.impressionsYesterday == 0 && c.enabled)) }]) := by
  have hmain : campaignAlertMain accountName yourEmail campaigns =
      (if (campaigns.filter
            (fun c => c.impressionsYesterday == 0 && c.enabled)) = [] then
        ([] : List Email)
       else
        [{ recipient := yourEmail
           subject := "Alerta: " ++ accountName ++ " – " ++
             toString (campaigns.filter
               (fun c => c.impressionsYesterday == 0 && c.enabled)).length ++
             " Campanhas sem impressões"
           plainBody := ""
           htmlBody := bodyHeader ++ namesHtml (campaigns.filter
             (fun c => c.impressionsYesterday == 0 && c.enabled)) }]) := by
    unfold campaignAlertMain
    rw [alertFold campaigns bodyHeader 0]
    by_cases hF : (campaigns.filter
        (fun c => c.impressionsYesterday == 0 && c.enabled)) = []
    · simp [hF]
    · have hlen : 0 < (campaigns.filter
          (fun c => c.impressionsYesterday == 0 && c.enabled)).length :=
        List.length_pos.mpr hF
      simp [hF, hlen, Nat.zero_add]
  refine ⟨?_, hmain⟩
  rw [hmain]
  by_cases hF : (campaigns.filter
      (fun c => c.impressionsYesterday == 0 && c.enabled)) = []
  · rw [if_pos hF]
    constructor
    · intro h
      exact absurd rfl h
    · rintro ⟨c, hcmem, hen, himp⟩
      rw [List.filter_eq_nil_iff] at hF
      have hp : (c.impressionsYesterday == 0 && c.enabled) = true := by
        simp [hen, himp]
      exact (hF c hcmem hp).elim
  · rw [if_neg hF]
    constructor
    · intro _
      rcases List.exists_mem_of_ne_nil _ hF with ⟨c, hc⟩
      rcases List.mem_filter.mp hc with ⟨hcmem, hcp⟩
      simp only [Bool.and_eq_true, beq_iff_eq] at hcp
      exact ⟨c, hcmem, hcp.2, hcp.1⟩
    · intro _
      simp

end CampaignAlert

namespace Kratu

lemma getUnprocessedAux (numAccountsProcess : Nat) :
    ∀ (tab : List AccountRow) (acc : List String),
      acc.length ≤ numAccountsProcess →
      tab.foldl (getUnprocessedStep numAccountsProcess) acc =
        acc ++ ((tab.filter (fun r => r.processed == 0)).map
          (fun r => r.cid)).take (numAccountsProcess - acc.length) := by
  intro tab
  induction tab with
  | nil =>
    intro acc _
    simp
  | cons r rest ih =>
    intro acc hacc
    rw [List.foldl_cons]
    by_cases hp : r.processed = 0
    · by_cases hfull : acc.length ≥ numAccountsProcess
      · have hlen : acc.length = numAccountsProcess :=
          le_antisymm hacc hfull
        have hstep : getUnprocessedStep numAccountsProcess acc r = acc := by
          simp [getUnprocessedStep, hfull]
        rw [hstep, ih acc hacc]
        simp [hlen, List.filter_cons, hp]
      · push_neg at hfull
        have hcond : ¬(r.processed ≠ 0 ∨
            acc.length ≥ numAccountsProcess) := by
          push_neg
          exact ⟨by simpa using hp, hfull⟩
        have hstep : getUnprocessedStep numAccountsProcess acc r =
            acc ++ [r.cid] := by
          unfold getUnprocessedStep
          rw [if_neg hcond]
        rw [hstep, ih (acc ++ [r.cid]) (by simp; omega)]
        have htake : numAccountsProcess - acc.length =
            (numAccountsProcess - (acc.length + 1)) + 1 := by omega
        simp [List.filter_cons, hp, htake, List.take_succ_cons,
          List.append_assoc]
    · have hstep : getUnprocessedStep numAccountsProcess acc r = acc := by
        simp [getUnprocessedStep, hp]
      rw [hstep, ih acc hacc]
      simp [List.filter_cons, hp]

lemma getUnprocessedAccounts_eq (tab : List AccountRow) (n : Nat) :
    getUnprocessedAccounts tab n =
      ((tab.filter (fun r => r.processed == 0)).map
        (fun r => r.cid)).take n := by
  have h := getUnprocessedAux n tab [] (by simp)
  simpa [getUnprocessedAccounts] using h

lemma markAccountAsProcessed_map_cid (tab : List AccountRow) (cid : String)
    (now : Nat) :
    (markAccountAsProcessed tab cid now).map (fun r => r.cid) =
      tab.map (fun r => r.cid) := by
  induction tab with
  | nil => rfl
  | cons r rest ih =>
    simp only [markAccountAsProcessed, List.map_cons] at ih ⊢
    rw [ih]
    by_cases h : r.cid = cid <;> simp [h]

lemma markAccounts_map_cid (cids : List String) :
    ∀ (tab : List AccountRow) (now : Nat),
      (markAccounts tab cids now).map (fun r => r.cid) =
        tab.map (fun r => r.cid) := by
  induction cids with
  | nil =>
    intro tab now
    rfl
  | cons c cs ih =>
    intro tab now
    have hstep : markAccounts tab (c :: cs) now =
        markAccounts (markAccountAsProcessed tab c now) cs now := rfl
    rw [hstep, ih, markAccountAsProcessed_map_cid]

lemma mem_markAccountAsProcessed {tab : List AccountRow} {cid : String}
    {now : Nat} {r : AccountRow}
    (hr : r ∈ markAccountAsProcessed tab cid now) :
    (r.cid = cid ∧ r.processed = now) ∨ (r.cid ≠ cid ∧ r ∈ tab) := by
  rw [markAccountAsProcessed] at hr
  rcases List.mem_map.mp hr with ⟨r0, hr0, rfl⟩
  by_cases h : r0.cid = cid
  · left
    simp [h]
  · right
    simp [h, hr0]

lemma mem_markAccounts {cids : List String} :
    ∀ {tab : List AccountRow} {now : Nat} {r : AccountRow},
      r ∈ markAccounts tab cids now →
      (r.cid ∈ cids ∧ r.processed = now) ∨ (r.cid ∉ cids ∧ r ∈ tab) := by
  induction cids with
  | nil =>
    intro tab now r hr
    exact Or.inr ⟨List.not_mem_nil _, hr⟩
  | cons c cs ih =>
    intro tab now r hr
    have hr' : r ∈ markAccounts (markAccountAsProcessed tab c now) cs now := hr
    rcases ih hr' with ⟨hin, hnoweq⟩ | ⟨hnin, hmem⟩
    · exact Or.inl ⟨List.mem_cons_of_mem c hin, hnoweq⟩
    · rcases mem_markAccountAsProcessed hmem with ⟨hc, hnoweq⟩ | ⟨hc, hmem2⟩
      · exact Or.inl ⟨by rw [hc]; exact List.mem_cons_self c cs, hnoweq⟩
      · refine Or.inr ⟨?_, hmem2⟩
        intro hmem3
        rcases List.mem_cons.mp hmem3 with h | h
        · exact hc h
        · exact hnin h

/-- C3: a batch invocation selects exactly the accounts with an empty
processed cell, in Accounts-tab (snapshot) order, capped at the batch size;
after any prefix of the batch has run, every account of that prefix is marked
with the current timestamp (per-account commit); and an account selected and
marked by a batch is never selected by a subsequent invocation, for any batch
size. -/
theorem c3_batch_resumption (tab : List AccountRow)
    (numAccountsProcess now m j : Nat) (hnow : now ≠ 0) :
    getUnprocessedAccounts tab numAccountsProcess =
      ((tab.filter (fun r => r.processed == 0)).map
        (fun r => r.cid)).take numAccountsProcess ∧
    (∀ r ∈ markAccounts tab
        ((getUnprocessedAccounts tab numAccountsProcess).take j) now,
      r.cid ∈ (getUnprocessedAccounts tab numAccountsProcess).take j →
        r.processed = now) ∧
    (∀ cid ∈ getUnprocessedAccounts tab numAccountsProcess,
      cid ∉ getUnprocessedAccounts
        (markAccounts tab (getUnprocessedAccounts tab numAccountsProcess) now)
        m) := by
  refine ⟨getUnprocessedAccounts_eq tab numAccountsProcess, ?_, ?_⟩
  · intro r hr hcid
    rcases mem_markAccounts hr with ⟨_, hnoweq⟩ | ⟨hnin, _⟩
    · exact hnoweq
    · exact (hnin hcid).elim
  · intro cid hcid hmem
    rw [getUnprocessedAccounts_eq] at hmem
    have hmem2 := List.take_subset _ _ hmem
    rcases List.mem_map.mp hmem2 with ⟨r, hrfilter, hcideq⟩
    rcases List.mem_filter.mp hrfilter with ⟨hrmem, hrp⟩
    simp only [beq_iff_eq] at hrp
    rcases mem_markAccounts hrmem with ⟨_, hnoweq⟩ | ⟨hnin, _⟩
    · exact hnow (by rw [← hnoweq, hrp])
    · exact hnin (by rw [hcideq]; exact hcid)

theorem c3_witness : getUnprocessedAccounts demoTab 5 = ["A", "C"] := by
  rw [(c3_batch_resumption demoTab 5 9 5 1 (by decide)).1]
  rfl

end Kratu

namespace Kratu

lemma markRunAsProcessed_eq (history : List HistoryRow) (now : Nat)
    (hne : history ≠ []) :
    markRunAsProcessed history now =
      history.dropLast ++ [{ history.getLast hne with endTs := now }] := by
  induction history with
  | nil => exact (hne rfl).elim
  | cons r rest ih =>
    cases rest with
    | nil => rfl
    | cons r2 rest2 =>
      have hstep : markRunAsProcessed (r :: r2 :: rest2) now =
          r :: markRunAsProcessed (r2 :: rest2) now := rfl
      rw [hstep, ih (by simp)]
      simp [List.getLast_cons]

lemma hasUnfinishedRun_ne_nil {history : List HistoryRow}
    (h : hasUnfinishedRun history = true) : history ≠ [] := by
  intro hnil
  rw [hnil] at h
  simp [hasUnfinishedRun] at h

lemma openRuns_le_one {history : List HistoryRow}
    (hgood : ∀ r ∈ history.dropLast, r.endTs ≠ 0) :
    (history.filter (fun r => r.endTs == 0)).length ≤ 1 := by
  rcases List.eq_nil_or_concat history with hnil | ⟨l', a, rfl⟩
  · simp [hnil]
  · simp only [List.concat_eq_append] at hgood ⊢
    rw [List.filter_append]
    have h1 : (l'.filter (fun r => r.endTs == 0)) = [] := by
      rw [List.filter_eq_nil_iff]
      intro r hr
      have hmem : r ∈ (l' ++ [a]).dropLast := by
        rw [List.dropLast_concat]
        exact hr
      simpa using hgood r hmem
    rw [h1, List.filter_singleton]
    cases a.endTs == 0 <;> simp

lemma all_closed_of_not_unfinished {history : List HistoryRow}
    (hnot : hasUnfinishedRun history = false)
    (hgood : ∀ r ∈ history.dropLast, r.endTs ≠ 0) :
    ∀ r ∈ history, r.endTs ≠ 0 := by
  rcases List.eq_nil_or_concat history with rfl | ⟨l', a, rfl⟩
  · intro r hr
    simp at hr
  · simp only [List.concat_eq_append] at hnot hgood ⊢
    intro r hr
    rcases List.mem_append.mp hr with h | h
    · refine hgood r ?_
      rw [List.dropLast_concat]
      exact h
    · rcases List.mem_singleton.mp h with rfl
      unfold hasUnfinishedRun at hnot
      rw [List.getLast?_concat] at hnot
      simpa using hnot

lemma continueUnfinishedReport_processed (signalDefinitions : List SignalDefinition)
    (sumWeights : ℚ) (raw : String → String → ℚ) (numAccountsProcess now : Nat)
    (st : KratuState) :
    (continueUnfinishedReport signalDefinitions sumWeights raw
        numAccountsProcess now st).2 =
      (getUnprocessedAccounts st.accounts numAccountsProcess).length := by
  simp only [continueUnfinishedReport]
  split <;> rfl

lemma continueUnfinishedReport_accounts (signalDefinitions : List SignalDefinition)
    (sumWeights : ℚ) (raw : String → String → ℚ) (numAccountsProcess now : Nat)
    (st : KratuState) :
    (continueUnfinishedReport signalDefinitions sumWeights raw
        numAccountsProcess now st).1.accounts =
      markAccounts st.accounts
        (getUnprocessedAccounts st.accounts numAccountsProcess) now := by
  simp only [continueUnfinishedReport]
  split <;> rfl

lemma continueUnfinishedReport_headerWrites (signalDefinitions : List SignalDefinition)
    (sumWeights : ℚ) (raw : String → String → ℚ) (numAccountsProcess now : Nat)
    (st : KratuState) :
    (continueUnfinishedReport signalDefinitions sumWeights raw
        numAccountsProcess now st).1.headerWrites = st.headerWrites + 1 := by
  simp only [continueUnfinishedReport]
  split <;> rfl

lemma continueUnfinishedReport_dataRows (signalDefinitions : List SignalDefinition)
    (sumWeights : ℚ) (raw : String → String → ℚ) (numAccountsProcess now : Nat)
    (st : KratuState) :
    (continueUnfinishedReport signalDefinitions sumWeights raw
        numAccountsProcess now st).1.dataRows =
      st.dataRows ++
        (getAccountInfos
          ((getUnprocessedAccounts st.accounts numAccountsProcess).map
            (fun cid => processSignals signalDefinitions sumWeights
              (raw cid)))).map (fun i => i.score) := by
  simp only [continueUnfinishedReport]
  split <;> rfl

lemma continueUnfinishedReport_history (signalDefinitions : List SignalDefinition)
    (sumWeights : ℚ) (raw : String → String → ℚ) (numAccountsProcess now : Nat)
    (st : KratuState) :
    (continueUnfinishedReport signalDefinitions sumWeights raw
        numAccountsProcess now st).1.history =
      (if 0 < (getUnprocessedAccounts st.accounts numAccountsProcess).length ∧
          allAccountsProcessed (markAccounts st.accounts
            (getUnprocessedAccounts st.accounts numAccountsProcess) now) =
            true then
        markRunAsProcessed st.history now
      else st.history) := by
  simp only [continueUnfinishedReport]
  split <;> rfl

lemma continueUnfinishedReport_protection (signalDefinitions : List SignalDefinition)
    (sumWeights : ℚ) (raw : String → String → ℚ) (numAccountsProcess now : Nat)
    (st : KratuState) :
    (continueUnfinishedReport signalDefinitions sumWeights raw
        numAccountsProcess now st).1.protectionOn =
      (if 0 < (getUnprocessedAccounts st.accounts numAccountsProcess).length ∧
          allAccountsProcessed (markAccounts st.accounts
            (getUnprocessedAccounts st.accounts numAccountsProcess) now) =
            true then
        false
      else st.protectionOn) := by
  simp only [continueUnfinishedReport]
  split <;> rfl

lemma continueUnfinishedReport_notifications (signalDefinitions : List SignalDefinition)
    (sumWeights : ℚ) (raw : String → String → ℚ) (numAccountsProcess now : Nat)
    (st : KratuState) :
    (continueUnfinishedReport signalDefinitions sumWeights raw
        numAccountsProcess now st).1.notifications =
      (if 0 < (getUnprocessedAccounts st.accounts numAccountsProcess).length ∧
          allAccountsProcessed (markAccounts st.accounts
            (getUnprocessedAccounts st.accounts numAccountsProcess) now) =
            true then
        st.notifications + 1
      else st.notifications) := by
  simp only [continueUnfinishedReport]
  split <;> rfl

end Kratu

namespace Kratu

/-- C4: while the run history's last record is open, `main` starts no new run:
it appends no RunRecord (history length unchanged) and neither clears nor
re-enumerates the account snapshot (the customer-id column is unchanged),
regardless of the elapsed frequency; and if at most the last history row was
open before the invocation, the same holds afterwards, so at most one
RunRecord is ever open. -/
theorem c4_mutual_exclusion (signalDefinitions : List SignalDefinition)
    (sumWeights : ℚ) (raw : String → String → ℚ)
    (reportFrequency numAccountsProcess : Nat) (fleet : List String)
    (newUrl : String) (now : Nat) (st : KratuState)
    (hgood : ∀ r ∈ st.history.dropLast, r.endTs ≠ 0) :
    (hasUnfinishedRun st.history = true →
      (mainStep signalDefinitions sumWeights raw reportFrequency
          numAccountsProcess fleet newUrl now st).history.length =
        st.history.length ∧
      (mainStep signalDefinitions sumWeights raw reportFrequency
          numAccountsProcess fleet newUrl now st).accounts.map
          (fun r => r.cid) =
        st.accounts.map (fun r => r.cid)) ∧
    (∀ r ∈ (mainStep signalDefinitions sumWeights raw reportFrequency
        numAccountsProcess fleet newUrl now st).history.dropLast,
      r.endTs ≠ 0) ∧
    ((mainStep signalDefinitions sumWeights raw reportFrequency
        numAccountsProcess fleet newUrl now st).history.filter
        (fun r => r.endTs == 0)).length ≤ 1 := by
  by_cases hopen : hasUnfinishedRun st.history = true
  · have hms : mainStep signalDefinitions sumWeights raw reportFrequency
        numAccountsProcess fleet newUrl now st =
        (continueUnfinishedReport signalDefinitions sumWeights raw
          numAccountsProcess now st).1 := by
      simp [mainStep, hopen]
    have hne := hasUnfinishedRun_ne_nil hopen
    have hpos : 0 < st.history.length := List.length_pos.mpr hne
    have hhist := continueUnfinishedReport_history signalDefinitions
      sumWeights raw numAccountsProcess now st
    have haccounts := continueUnfinishedReport_accounts signalDefinitions
      sumWeights raw numAccountsProcess now st
    by_cases hcond : 0 < (getUnprocessedAccounts st.accounts
          numAccountsProcess).length ∧
        allAccountsProcessed (markAccounts st.accounts
          (getUnprocessedAccounts st.accounts numAccountsProcess) now) =
          true
    · rw [if_pos hcond] at hhist
      have hmark := markRunAsProcessed_eq st.history now hne
      have hgood' : ∀ r ∈ (mainStep signalDefinitions sumWeights raw
          reportFrequency numAccountsProcess fleet newUrl now
          st).history.dropLast, r.endTs ≠ 0 := by
        rw [hms, hhist, hmark, List.dropLast_concat]
        exact hgood
      refine ⟨fun _ => ⟨?_, ?_⟩, hgood', ?_⟩
      · rw [hms, hhist, hmark]
        simp only [List.length_append, List.length_dropLast,
          List.length_singleton]
        omega
      · rw [hms, haccounts, markAccounts_map_cid]
      · refine openRuns_le_one ?_
        rw [hms] at hgood'
        rw [hms]
        exact hgood'
    · rw [if_neg hcond] at hhist
      have hgood' : ∀ r ∈ (mainStep signalDefinitions sumWeights raw
          reportFrequency numAccountsProcess fleet newUrl now
          st).history.dropLast, r.endTs ≠ 0 := by
        rw [hms, hhist]
        exact hgood
      refine ⟨fun _ => ⟨?_, ?_⟩, hgood', openRuns_le_one hgood'⟩
      · rw [hms, hhist]
      · rw [hms, haccounts, markAccounts_map_cid]
  · have hopenF : hasUnfinishedRun st.history = false := by
      simpa using hopen
    have hclosed := all_closed_of_not_unfinished hopenF hgood
    have hms : mainStep signalDefinitions sumWeights raw reportFrequency
        numAccountsProcess fleet newUrl now st =
        (if getLastReportStartTimestamp st.history = 0 ∨
            dayDifference (getLastReportStartTimestamp st.history) now ≥
              reportFrequency then
          startNewReport fleet now newUrl st
        else st) := by
      simp [mainStep, hopenF]
    have hgood' : ∀ r ∈ (mainStep signalDefinitions sumWeights raw
        reportFrequency numAccountsProcess fleet newUrl now
        st).history.dropLast, r.endTs ≠ 0 := by
      by_cases hfreq : getLastReportStartTimestamp st.history = 0 ∨
          dayDifference (getLastReportStartTimestamp st.history) now ≥
            reportFrequency
      · rw [hms, if_pos hfreq]
        intro r hr
        rw [show (startNewReport fleet now newUrl st).history =
            st.history ++ [{ startTs := now, endTs := 0, url := newUrl }]
            from rfl, List.dropLast_concat] at hr
        exact hclosed r hr
      · rw [hms, if_neg hfreq]
        exact hgood
    exact ⟨fun habs => absurd habs (by simp [hopenF]), hgood',
      openRuns_le_one hgood'⟩

theorem c4_witness :
    ((mainStep [] 0 (fun _ _ => 0) 1 1 [] "u" 9
        oneAccountState).history.filter (fun r => r.endTs == 0)).length ≤ 1 :=
  (c4_mutual_exclusion [] 0 (fun _ _ => 0) 1 1 [] "u" 9 oneAccountState
    (by simp [oneAccountState])).2.2

/-- C5: a batch invocation finalizes the run — removes configuration
protection, sets the RunRecord's end timestamp and triggers the notification —
exactly when the batch processed at least one account and every snapshot
account is marked processed afterwards; in particular a batch that processed
zero accounts never finalizes the run, even when all accounts are already
processed. -/
theorem c5_completion_iff (signalDefinitions : List SignalDefinition)
    (sumWeights : ℚ) (raw : String → String → ℚ)
    (numAccountsProcess now : Nat) (st : KratuState) :
    ((continueUnfinishedReport signalDefinitions sumWeights raw
        numAccountsProcess now st).1.notifications = st.notifications + 1 ↔
      0 < (continueUnfinishedReport signalDefinitions sumWeights raw
          numAccountsProcess now st).2 ∧
        allAccountsProcessed (continueUnfinishedReport signalDefinitions
          sumWeights raw numAccountsProcess now st).1.accounts = true) ∧
    (0 < (continueUnfinishedReport signalDefinitions sumWeights raw
        numAccountsProcess now st).2 ∧
      allAccountsProcessed (continueUnfinishedReport signalDefinitions
        sumWeights raw numAccountsProcess now st).1.accounts = true →
      (continueUnfinishedReport signalDefinitions sumWeights raw
        numAccountsProcess now st).1.protectionOn = false ∧
      (continueUnfinishedReport signalDefinitions sumWeights raw
        numAccountsProcess now st).1.history =
        markRunAsProcessed st.history now) ∧
    (¬(0 < (continueUnfinishedReport signalDefinitions sumWeights raw
        numAccountsProcess now st).2 ∧
      allAccountsProcessed (continueUnfinishedReport signalDefinitions
        sumWeights raw numAccountsProcess now st).1.accounts = true) →
      (continueUnfinishedReport signalDefinitions sumWeights raw
        numAccountsProcess now st).1.protectionOn = st.protectionOn ∧
      (continueUnfinishedReport signalDefinitions sumWeights raw
        numAccountsProcess now st).1.history = st.history) ∧
    ((continueUnfinishedReport signalDefinitions sumWeights raw
        numAccountsProcess now st).2 = 0 →
      (continueUnfinishedReport signalDefinitions sumWeights raw
        numAccountsProcess now st).1.notifications = st.notifications ∧
      (continueUnfinishedReport signalDefinitions sumWeights raw
        numAccountsProcess now st).1.protectionOn = st.protectionOn ∧
      (continueUnfinishedReport signalDefinitions sumWeights raw
        numAccountsProcess now st).1.history = st.history) := by
  have hp := continueUnfinishedReport_processed signalDefinitions sumWeights
    raw numAccountsProcess now st
  have ha := continueUnfinishedReport_accounts signalDefinitions sumWeights
    raw numAccountsProcess now st
  have hh := continueUnfinishedReport_history signalDefinitions sumWeights
    raw numAccountsProcess now st
  have hpr := continueUnfinishedReport_protection signalDefinitions sumWeights
    raw numAccountsProcess now st
  have hn := continueUnfinishedReport_notifications signalDefinitions
    sumWeights raw numAccountsProcess now st
  rw [hp, ha, hh, hpr, hn]
  by_cases hcond : 0 < (getUnprocessedAccounts st.accounts
        numAccountsProcess).length ∧
      allAccountsProcessed (markAccounts st.accounts
        (getUnprocessedAccounts st.accounts numAccountsProcess) now) = true
  · simp only [if_pos hcond]
    refine ⟨⟨fun _ => hcond, fun _ => by trivial⟩,
      fun _ => ⟨by trivial, by trivial⟩,
      fun hnc => (hnc hcond).elim, ?_⟩
    intro h0
    rw [h0] at hcond
    exact absurd hcond.1 (lt_irrefl 0)
  · simp only [if_neg hcond]
    refine ⟨⟨?_, fun hc => (hcond hc).elim⟩, fun hc => (hcond hc).elim,
      fun _ => ⟨by trivial, by trivial⟩,
      fun _ => ⟨by trivial, by trivial, by trivial⟩⟩
    intro heq
    exact absurd heq (by omega)

theorem c5_witness :
    (continueUnfinishedReport [] 0 (fun _ _ => 0) 1 9
        oneAccountState).1.notifications =
      oneAccountState.notifications + 1 := by
  have hcond : 0 < (continueUnfinishedReport [] 0 (fun _ _ => 0) 1 9
        oneAccountState).2 ∧
      allAccountsProcessed (continueUnfinishedReport [] 0 (fun _ _ => 0) 1 9
        oneAccountState).1.accounts = true := by
    rw [continueUnfinishedReport_processed, continueUnfinishedReport_accounts]
    constructor
    · simp [getUnprocessedAccounts, getUnprocessedStep, oneAccountState]
    · simp [getUnprocessedAccounts, getUnprocessedStep, markAccounts,
        markAccountAsProcessed, allAccountsProcessed, oneAccountState]
  exact (c5_completion_iff [] 0 (fun _ _ => 0) 1 9 oneAccountState).1.mpr hcond

/-- C8: the claim that a zero-size batch performs no side effects is false:
with batch size 0 the invocation returns a processed count of 0, but
`writeAccountDataToSpreadsheet` still runs and writes the header row to the
report sheet. -/
theorem c8_counterexample :
    (continueUnfinishedReport [] 0 (fun _ _ => 0) 0 9 oneAccountState).2 = 0 ∧
    (continueUnfinishedReport [] 0 (fun _ _ => 0) 0 9
        oneAccountState).1.headerWrites ≠ oneAccountState.headerWrites := by
  constructor
  · rw [continueUnfinishedReport_processed]
    simp [getUnprocessedAccounts, getUnprocessedStep, oneAccountState]
  · rw [continueUnfinishedReport_headerWrites]
    simp

/-- C8 (amended): when the batch size is 0 or no unprocessed account remains,
the invocation returns a processed count of 0, marks no account, leaves the
run record, the protection, the notifications and the report data rows
unchanged — but it still (re)writes the header row of the report sheet. -/
theorem c8_zero_batch (signalDefinitions : List SignalDefinition)
    (sumWeights : ℚ) (raw : String → String → ℚ) (maxCount now : Nat)
    (st : KratuState)
    (h : maxCount = 0 ∨ getUnprocessedAccounts st.accounts maxCount = []) :
    (continueUnfinishedReport signalDefinitions sumWeights raw maxCount now
      st).2 = 0 ∧
    (continueUnfinishedReport signalDefinitions sumWeights raw maxCount now
      st).1.accounts = st.accounts ∧
    (continueUnfinishedReport signalDefinitions sumWeights raw maxCount now
      st).1.history = st.history ∧
    (continueUnfinishedReport signalDefinitions sumWeights raw maxCount now
      st).1.protectionOn = st.protectionOn ∧
    (continueUnfinishedReport signalDefinitions sumWeights raw maxCount now
      st).1.notifications = st.notifications ∧
    (continueUnfinishedReport signalDefinitions sumWeights raw maxCount now
      st).1.dataRows = st.dataRows ∧
    (continueUnfinishedReport signalDefinitions sumWeights raw maxCount now
      st).1.headerWrites = st.headerWrites + 1 := by
  have hsel : getUnprocessedAccounts st.accounts maxCount = [] := by
    rcases h with h0 | hsel
    · rw [getUnprocessedAccounts_eq, h0]
      simp
    · exact hsel
  have hcond : ¬(0 < (getUnprocessedAccounts st.accounts maxCount).length ∧
      allAccountsProcessed (markAccounts st.accounts
        (getUnprocessedAccounts st.accounts maxCount) now) = true) := by
    rw [hsel]
    simp
  refine ⟨?_, ?_, ?_, ?_, ?_, ?_, ?_⟩
  · rw [continueUnfinishedReport_processed, hsel]
    rfl
  · rw [continueUnfinishedReport_accounts, hsel]
    rfl
  · rw [continueUnfinishedReport_history, if_neg hcond]
  · rw [continueUnfinishedReport_protection, if_neg hcond]
  · rw [continueUnfinishedReport_notifications, if_neg hcond]
  · rw [continueUnfinishedReport_dataRows, hsel]
    simp [getAccountInfos]
  · rw [continueUnfinishedReport_headerWrites]

theorem c8_witness :
    (continueUnfinishedReport [] 0 (fun _ _ => 0) 0 9 oneAccountState).2 = 0 ∧
    (continueUnfinishedReport [] 0 (fun _ _ => 0) 0 9
        oneAccountState).1.headerWrites =
      oneAccountState.headerWrites + 1 :=
  ⟨(c8_zero_batch [] 0 (fun _ _ => 0) 0 9 oneAccountState (Or.inl rfl)).1,
   (c8_zero_batch [] 0 (fun _ _ => 0) 0 9 oneAccountState
     (Or.inl rfl)).2.2.2.2.2.2⟩

end Kratu
